import Mathlib

/-!
Verification of `scripts/export_yolo_onnx.py` (UltimaMotion).

The script enumerates a fixed list of checkpoint filenames; for each one
that exists on disk it loads the model, exports it to ONNX with a fixed
configuration, and moves the exporter-reported output file into a target
directory, catching any per-checkpoint failure.

We embed the script shallowly: the filesystem is a partial map from path
strings to file-content identifiers, the external library (model load,
export, the OS rename and mkdir calls' possible failures) is an
environment record, and a run produces an event trace that records the
calls the script makes and the lines it prints.
-/

/-- A filesystem: each path either holds a file (identified by a content
id) or nothing. Directories are not tracked as entries; the directory
creation call is recorded as an event instead. -/
def FS : Type := String → Option Nat

/-- Update the filesystem at one path. -/
def FS.set (fs : FS) (p : String) (v : Option Nat) : FS :=
  fun q => if q = p then v else fs q

/-- `os.path.exists` on our filesystem. -/
def FS.pathExists (fs : FS) (p : String) : Bool :=
  (fs p).isSome

/-- `os.rename src dst`: the destination receives the source's content and
the source entry disappears; renaming a path to itself changes nothing. -/
def osRename (fs : FS) (src dst : String) : FS :=
  if src = dst then fs else (fs.set dst (fs src)).set src none

/-- `os.path.join a b` for a relative argument `b` (POSIX). -/
def osPathJoin (a b : String) : String := a ++ "/" ++ b

/-- Does char list `s` start with char list `p`? -/
def startsWithChars : List Char → List Char → Bool
  | [], _ => true
  | _ :: _, [] => false
  | p :: ps, c :: cs => p = c && startsWithChars ps cs

/-- Python `str.replace`: replace every non-overlapping occurrence of
`pat` in `s` by `rep`, scanning left to right (char-list form). The
fuel argument makes the recursion structural; it is called with fuel =
length of `s`, and each step consumes at least one char of `s`, so the
fuel never runs out. -/
def replaceAll (pat rep : List Char) : Nat → List Char → List Char
  | 0, s => s
  | _ + 1, [] => []
  | fuel + 1, c :: rest =>
    if pat ≠ [] ∧ startsWithChars pat (c :: rest) then
      rep ++ replaceAll pat rep fuel ((c :: rest).drop pat.length)
    else
      c :: replaceAll pat rep fuel rest

/-- Python `str.replace` on strings. -/
def pythonReplace (s pat rep : String) : String :=
  String.mk (replaceAll pat.toList rep.toList s.toList.length s.toList)

/-- The export configuration record passed to `model.export(...)`. -/
structure ExportConfig where
  format : String
  imgsz : Nat
  simplify : Bool
  dynamic : Bool
  half : Bool
  opset : Nat
deriving DecidableEq

/-- The configuration the script passes on every export call:
`format="onnx", imgsz=640, simplify=True, dynamic=False, half=True,
opset=17`. -/
def exportCfg : ExportConfig :=
  { format := "onnx", imgsz := 640, simplify := true,
    dynamic := false, half := true, opset := 17 }

/-- One console line printed by the script. -/
inductive LogLine where
  | exportingTo (dir : String)
  | processing (name : String)
  | skipped (name : String)
  | success (onnxName : String) (finalPath : String)
  | warningMissing (expectedPath : String)
  | errorExporting (name : String) (detail : String)
deriving DecidableEq

/-- An observable step of a run: a call the script makes into the OS or
the export library, or a console line it prints. `mkdirs dir parents
existOk` records `os.makedirs` with whether parents are created and
whether an existing directory is tolerated. -/
inductive Event where
  | mkdirs (dir : String) (parents : Bool) (existOk : Bool)
  | echo (line : LogLine)
  | existsCheck (path : String) (result : Bool)
  | loadModel (name : String)
  | exportModel (name : String) (cfg : ExportConfig)
  | renameFile (src dst : String)
deriving DecidableEq

/-- Behaviour of everything outside the script: the model library's load
and export calls (each may raise), whether the export call actually
leaves a file at the path it returns, the content id of that file, and
possible OS failures of `os.rename` and `os.makedirs`. -/
structure Env where
  loadModel : String → Except String Unit
  exportModel : String → Except String String
  exportWrites : String → Bool
  exportContent : String → Nat
  renameErr : String → String → Option String
  mkdirErr : Option String

/-- `model_name.replace(".pt", ".onnx")` joined onto the target
directory: the destination path the script computes for a checkpoint. -/
def finalPathOf (targetDir name : String) : String :=
  osPathJoin targetDir (pythonReplace name ".pt" ".onnx")

/-- The filesystem right after the export call for `name` returned path
`p`: the exporter either left its artifact at `p` or wrote nothing. -/
def postExportFS (env : Env) (fs : FS) (name p : String) : FS :=
  if env.exportWrites name then fs.set p (some (env.exportContent name)) else fs

/-- The body of the `try` block for one checkpoint. An exception is an
`Except.error` carrying the message, the filesystem at the moment it was
raised, and the events that had already happened inside the block. -/
def checkpointBody (env : Env) (targetDir : String) (name : String) (fs : FS) :
    Except (String × FS × List Event) (FS × List Event) :=
  if fs.pathExists name = false then
    .ok (fs, [Event.existsCheck name false, Event.echo (.skipped name)])
  else
    let ev1 := [Event.existsCheck name true, Event.loadModel name]
    match env.loadModel name with
    | .error e => .error (e, fs, ev1)
    | .ok _ =>
      let ev2 := ev1 ++ [Event.exportModel name exportCfg]
      match env.exportModel name with
      | .error e => .error (e, fs, ev2)
      | .ok exportedPath =>
        let fs1 := postExportFS env fs name exportedPath
        let finalPath := finalPathOf targetDir name
        if fs1.pathExists exportedPath = true then
          let ev3 := ev2 ++ [Event.existsCheck exportedPath true,
                             Event.renameFile exportedPath finalPath]
          match env.renameErr exportedPath finalPath with
          | some e => .error (e, fs1, ev3)
          | none =>
            .ok (osRename fs1 exportedPath finalPath,
                 ev3 ++ [Event.echo (.success (pythonReplace name ".pt" ".onnx") finalPath)])
        else
          .ok (fs1, ev2 ++ [Event.existsCheck exportedPath false,
                            Event.echo (.warningMissing exportedPath)])

/-- One iteration of the loop: print the processing line, run the `try`
body, and catch any exception, printing the error line with the
checkpoint name and the failure detail. Always returns normally. -/
def processCheckpoint (env : Env) (targetDir : String) (fs : FS) (name : String) :
    FS × List Event :=
  match checkpointBody env targetDir name fs with
  | .ok (fs1, evs) => (fs1, Event.echo (.processing name) :: evs)
  | .error (e, fs1, evs) =>
      (fs1, Event.echo (.processing name) :: evs ++ [Event.echo (.errorExporting name e)])

/-- The loop over the checkpoint list, threading the filesystem and
accumulating the trace. -/
def runBatch (env : Env) (targetDir : String) (fs : FS) : List String → FS × List Event
  | [] => (fs, [])
  | n :: rest =>
    let r1 := processCheckpoint env targetDir fs n
    let r2 := runBatch env targetDir r1.1 rest
    (r2.1, r1.2 ++ r2.2)

/-- The fixed list of checkpoint filenames in the script. -/
def model_names : List String :=
  ["yolo26n-pose.pt", "yolo26s-pose.pt", "yolo26m-pose.pt",
   "yolo26l-pose.pt", "yolo26x-pose.pt",
   "yolo26n-seg.pt", "yolo26s-seg.pt", "yolo26m-seg.pt",
   "yolo26l-seg.pt", "yolo26x-seg.pt"]

/-- The target directory computed from the script's own directory:
`os.path.join(os.path.dirname(__file__), "..", "public", "models",
"yolo26")`. -/
def targetDirOf (scriptDir : String) : String :=
  osPathJoin (osPathJoin (osPathJoin scriptDir "..") "public") (osPathJoin "models" "yolo26")

/-- The whole run of `export_models()`: `os.makedirs(target_dir,
exist_ok=True)` (whose failure is uncaught and aborts the run), the
banner line, then the loop. An error result carries the events up to the
abort. -/
def export_models (env : Env) (scriptDir : String) (fs : FS) :
    Except (String × List Event) (FS × List Event) :=
  let targetDir := targetDirOf scriptDir
  match env.mkdirErr with
  | some e => .error (e, [Event.mkdirs targetDir true true])
  | none =>
    let r := runBatch env targetDir fs model_names
    .ok (r.1, Event.mkdirs targetDir true true :: Event.echo (.exportingTo targetDir) :: r.2)

/-- The event trace of a run, whether it aborted or completed. -/
def eventsOf : Except (String × List Event) (FS × List Event) → List Event
  | .error (_, evs) => evs
  | .ok (_, evs) => evs

/-- Did the run return normally (no uncaught exception)? -/
def runCompleted : Except (String × List Event) (FS × List Event) → Bool
  | .ok _ => true
  | .error _ => false

/-- Spec-side description of the destination filename: the checkpoint
name with its extension (the part from the last dot) stripped. Written
from the spec's words, to be compared with the script's
`name.replace(".pt", ".onnx")` computation. -/
def stemOf (s : String) : String :=
  if s.toList.contains '.' then
    String.mk (((s.toList.reverse.dropWhile (fun c => c ≠ '.')).drop 1).reverse)
  else s

/-- Is `q` a path lying inside directory `dir`? -/
def inDir (dir q : String) : Bool :=
  startsWithChars (dir ++ "/").toList q.toList

/-- An environment in which every call succeeds: loads succeed, the
export call returns the `.onnx`-named path and leaves a file there with
content id 7, renames and the mkdir succeed. -/
def envOk : Env :=
  { loadModel := fun _ => .ok ()
    exportModel := fun n => .ok (pythonReplace n ".pt" ".onnx")
    exportWrites := fun _ => true
    exportContent := fun _ => 7
    renameErr := fun _ _ => none
    mkdirErr := none }

/-- Like `envOk` but every model load raises. -/
def envLoadFail : Env :=
  { envOk with loadModel := fun _ => .error "boom" }

/-- Like `envOk` but the export call reports a path without leaving a
file there. -/
def envNoWrite : Env :=
  { envOk with exportWrites := fun _ => false }

/-- Like `envOk` but every rename raises. -/
def envRenameFail : Env :=
  { envOk with renameErr := fun _ _ => some "cross-device link" }

/-- Like `envOk` but the directory-creation call raises. -/
def envMkdirFail : Env :=
  { envOk with mkdirErr := some "permission denied" }

/-- An empty current directory. -/
def fsEmpty : FS := fun _ => none

/-- A directory holding exactly the first checkpoint file. -/
def fsOne : FS :=
  fun q => if q = "yolo26n-pose.pt" then some 1 else none

/-- A directory holding the first checkpoint file and a stale artifact
already sitting at the destination path. -/
def fsOneStale : FS :=
  fun q =>
    if q = "yolo26n-pose.pt" then some 1
    else if q = finalPathOf (targetDirOf "s") "yolo26n-pose.pt" then some 2
    else none

lemma FS.set_ne (fs : FS) (p q : String) (v : Option Nat) (h : q ≠ p) :
    fs.set p v q = fs q := by
  simp [FS.set, h]

lemma FS.set_same (fs : FS) (p : String) (v : Option Nat) :
    fs.set p v p = v := by
  simp [FS.set]

lemma osRename_other (fs : FS) (src dst q : String) (h1 : q ≠ src) (h2 : q ≠ dst) :
    osRename fs src dst q = fs q := by
  unfold osRename
  split
  · rfl
  · rw [FS.set_ne _ _ _ _ h1, FS.set_ne _ _ _ _ h2]

lemma postExportFS_ne (env : Env) (fs : FS) (name p q : String) (h : q ≠ p) :
    postExportFS env fs name p q = fs q := by
  unfold postExportFS
  split
  · exact FS.set_ne _ _ _ _ h
  · rfl

lemma processCheckpoint_snd_head (env : Env) (targetDir : String) (fs : FS) (name : String) :
    ∃ t, (processCheckpoint env targetDir fs name).2 = Event.echo (.processing name) :: t := by
  unfold processCheckpoint
  rcases hb : checkpointBody env targetDir name fs with ⟨e, fs1, evs⟩ | ⟨fs1, evs⟩
  · exact ⟨evs ++ [Event.echo (.errorExporting name e)], rfl⟩
  · exact ⟨evs, rfl⟩

lemma runBatch_processing_mem (env : Env) (targetDir : String) :
    ∀ (names : List String) (fs : FS) (name : String), name ∈ names →
      Event.echo (.processing name) ∈ (runBatch env targetDir fs names).2 := by
  intro names
  induction names with
  | nil => intro fs name h; cases h
  | cons n rest ih =>
    intro fs name h
    rw [runBatch]
    simp only [List.mem_append]
    rcases List.mem_cons.mp h with rfl | hmem
    · left
      obtain ⟨t, ht⟩ := processCheckpoint_snd_head env targetDir fs name
      rw [ht]
      exact List.mem_cons_self _ _
    · right
      exact ih _ _ hmem

/-- Claim C2: if the checkpoint file does not exist, the iteration
invokes no load or export capability, reports the skip notice, leaves
the filesystem untouched, and the loop continues with the rest of the
list. -/
theorem c2_missing_checkpoint_skipped (env : Env) (targetDir : String) (fs : FS)
    (name : String) (rest : List String) (cfg : ExportConfig)
    (h : fs.pathExists name = false) :
    processCheckpoint env targetDir fs name =
      (fs, [Event.echo (.processing name), Event.existsCheck name false,
            Event.echo (.skipped name)])
    ∧ Event.loadModel name ∉ (processCheckpoint env targetDir fs name).2
    ∧ Event.exportModel name cfg ∉ (processCheckpoint env targetDir fs name).2
    ∧ runBatch env targetDir fs (name :: rest) =
        ((runBatch env targetDir fs rest).1,
         [Event.echo (.processing name), Event.existsCheck name false,
          Event.echo (.skipped name)] ++ (runBatch env targetDir fs rest).2) := by
  have hp : processCheckpoint env targetDir fs name =
      (fs, [Event.echo (.processing name), Event.existsCheck name false,
            Event.echo (.skipped name)]) := by
    unfold processCheckpoint checkpointBody
    simp [h]
  refine ⟨hp, ?_, ?_, ?_⟩
  · rw [hp]; simp
  · rw [hp]; simp
  · rw [runBatch, hp]

/-- Witness for C2 at an empty working directory and the first
checkpoint name. -/
theorem c2_witness :
    processCheckpoint envOk "t" fsEmpty "yolo26n-pose.pt" =
      (fsEmpty, [Event.echo (.processing "yolo26n-pose.pt"),
                 Event.existsCheck "yolo26n-pose.pt" false,
                 Event.echo (.skipped "yolo26n-pose.pt")])
    ∧ Event.loadModel "yolo26n-pose.pt" ∉ (processCheckpoint envOk "t" fsEmpty "yolo26n-pose.pt").2
    ∧ Event.exportModel "yolo26n-pose.pt" exportCfg ∉
        (processCheckpoint envOk "t" fsEmpty "yolo26n-pose.pt").2
    ∧ runBatch envOk "t" fsEmpty ["yolo26n-pose.pt"] =
        ((runBatch envOk "t" fsEmpty []).1,
         [Event.echo (.processing "yolo26n-pose.pt"),
          Event.existsCheck "yolo26n-pose.pt" false,
          Event.echo (.skipped "yolo26n-pose.pt")] ++ (runBatch envOk "t" fsEmpty []).2) :=
  c2_missing_checkpoint_skipped envOk "t" fsEmpty "yolo26n-pose.pt" [] exportCfg rfl

/-- Claim C5: the very first event of every run — whether it aborts or
completes — is the `os.makedirs` call on the target directory, with
parent creation and tolerance of an existing directory; so the directory
creation precedes every existence check, load, export and rename. -/
theorem c5_mkdir_before_any_checkpoint (env : Env) (scriptDir : String) (fs : FS) :
    (eventsOf (export_models env scriptDir fs)).head? =
      some (Event.mkdirs (targetDirOf scriptDir) true true) := by
  rcases hm : env.mkdirErr with _ | e <;> simp [export_models, eventsOf, hm]

/-- Claim C8: a failure of the directory-creation call aborts the run
with no checkpoint processed (the trace holds only the mkdir call), and
it is the only fatal failure: under any environment whose mkdir call
succeeds, the run completes normally. -/
theorem c8_mkdir_error_only_fatal (env env2 : Env) (scriptDir : String) (fs : FS)
    (e : String) (h : env.mkdirErr = some e) (h2 : env2.mkdirErr = none) :
    export_models env scriptDir fs =
      .error (e, [Event.mkdirs (targetDirOf scriptDir) true true])
    ∧ runCompleted (export_models env2 scriptDir fs) = true := by
  constructor
  · simp [export_models, h]
  · simp [export_models, h2, runCompleted]

/-- Witness for C8: a failing mkdir aborts; `envOk` completes. -/
theorem c8_witness :
    export_models envMkdirFail "s" fsEmpty =
      .error ("permission denied", [Event.mkdirs (targetDirOf "s") true true])
    ∧ runCompleted (export_models envOk "s" fsEmpty) = true :=
  c8_mkdir_error_only_fatal envMkdirFail envOk "s" fsEmpty "permission denied" rfl rfl

/-- Claim C1: with the directory creation succeeding, the run always
returns normally; every name in the list gets its processing line in the
trace (the batch covers the full list); and whenever the `try` body for
a checkpoint raises, the iteration returns normally with the error line
carrying that checkpoint's name and the failure detail, and the loop
goes on to the remaining names. -/
theorem c1_failure_isolated (env : Env) (scriptDir : String) (fs : FS)
    (targetDir : String) (fs0 : FS) (name : String) (rest : List String)
    (e : String) (fsE : FS) (evE : List Event)
    (hmk : env.mkdirErr = none)
    (hname : name ∈ model_names)
    (hErr : checkpointBody env targetDir name fs0 = .error (e, fsE, evE)) :
    runCompleted (export_models env scriptDir fs) = true
    ∧ Event.echo (.processing name) ∈ eventsOf (export_models env scriptDir fs)
    ∧ processCheckpoint env targetDir fs0 name =
        (fsE, Event.echo (.processing name) :: evE ++ [Event.echo (.errorExporting name e)])
    ∧ runBatch env targetDir fs0 (name :: rest) =
        ((runBatch env targetDir fsE rest).1,
         (Event.echo (.processing name) :: evE ++ [Event.echo (.errorExporting name e)])
           ++ (runBatch env targetDir fsE rest).2) := by
  have hp : processCheckpoint env targetDir fs0 name =
      (fsE, Event.echo (.processing name) :: evE ++ [Event.echo (.errorExporting name e)]) := by
    unfold processCheckpoint
    rw [hErr]
  refine ⟨?_, ?_, hp, ?_⟩
  · simp [export_models, hmk, runCompleted]
  · simp only [export_models, hmk, eventsOf]
    exact List.mem_cons_of_mem _ (List.mem_cons_of_mem _
      (runBatch_processing_mem env (targetDirOf scriptDir) model_names fs name hname))
  · rw [runBatch, hp]

/-- Witness for C1: a load failure on the first checkpoint. -/
theorem c1_witness :
    runCompleted (export_models envLoadFail "s" fsOne) = true
    ∧ Event.echo (.processing "yolo26n-pose.pt")
        ∈ eventsOf (export_models envLoadFail "s" fsOne)
    ∧ processCheckpoint envLoadFail "t" fsOne "yolo26n-pose.pt" =
        (fsOne, Event.echo (.processing "yolo26n-pose.pt")
          :: [Event.existsCheck "yolo26n-pose.pt" true, Event.loadModel "yolo26n-pose.pt"]
          ++ [Event.echo (.errorExporting "yolo26n-pose.pt" "boom")])
    ∧ runBatch envLoadFail "t" fsOne ["yolo26n-pose.pt", "yolo26s-pose.pt"] =
        ((runBatch envLoadFail "t" fsOne ["yolo26s-pose.pt"]).1,
         (Event.echo (.processing "yolo26n-pose.pt")
           :: [Event.existsCheck "yolo26n-pose.pt" true, Event.loadModel "yolo26n-pose.pt"]
           ++ [Event.echo (.errorExporting "yolo26n-pose.pt" "boom")])
           ++ (runBatch envLoadFail "t" fsOne ["yolo26s-pose.pt"]).2) :=
  c1_failure_isolated envLoadFail "s" fsOne "t" fsOne "yolo26n-pose.pt"
    ["yolo26s-pose.pt"] "boom" fsOne
    [Event.existsCheck "yolo26n-pose.pt" true, Event.loadModel "yolo26n-pose.pt"]
    rfl (by decide) rfl

/-- Claim C4: when the export call succeeds but no file exists at the
path it reported, the iteration returns normally with the filesystem
unchanged (so nothing is created at the destination), its trace shows
exactly one export call (no retry), the warning line is printed, and the
loop continues with the rest of the list. -/
theorem c4_missing_export_output (env : Env) (targetDir : String) (fs : FS)
    (name p : String) (rest : List String)
    (hex : fs.pathExists name = true)
    (hload : env.loadModel name = .ok ())
    (hexp : env.exportModel name = .ok p)
    (hmiss : (postExportFS env fs name p).pathExists p = false) :
    processCheckpoint env targetDir fs name =
      (fs, [Event.echo (.processing name), Event.existsCheck name true,
            Event.loadModel name, Event.exportModel name exportCfg,
            Event.existsCheck p false, Event.echo (.warningMissing p)])
    ∧ (processCheckpoint env targetDir fs name).1 (finalPathOf targetDir name)
        = fs (finalPathOf targetDir name)
    ∧ runBatch env targetDir fs (name :: rest) =
        ((runBatch env targetDir fs rest).1,
         [Event.echo (.processing name), Event.existsCheck name true,
          Event.loadModel name, Event.exportModel name exportCfg,
          Event.existsCheck p false, Event.echo (.warningMissing p)]
           ++ (runBatch env targetDir fs rest).2) := by
  have hw : env.exportWrites name = false := by
    by_contra hw
    rw [Bool.not_eq_false] at hw
    have : (postExportFS env fs name p).pathExists p = true := by
      simp [postExportFS, hw, FS.pathExists, FS.set_same]
    rw [this] at hmiss
    exact absurd hmiss (by simp)
  have hpost : postExportFS env fs name p = fs := by
    simp [postExportFS, hw]
  have hp : processCheckpoint env targetDir fs name =
      (fs, [Event.echo (.processing name), Event.existsCheck name true,
            Event.loadModel name, Event.exportModel name exportCfg,
            Event.existsCheck p false, Event.echo (.warningMissing p)]) := by
    rw [hpost] at hmiss
    unfold processCheckpoint checkpointBody
    rw [hex]
    simp [hload, hexp, hpost, hmiss]
  refine ⟨hp, by rw [hp], ?_⟩
  rw [runBatch, hp]

/-- Witness for C4: an environment whose export call reports a path
without writing the file. -/
theorem c4_witness :
    processCheckpoint envNoWrite "t" fsOne "yolo26n-pose.pt" =
      (fsOne, [Event.echo (.processing "yolo26n-pose.pt"),
               Event.existsCheck "yolo26n-pose.pt" true,
               Event.loadModel "yolo26n-pose.pt",
               Event.exportModel "yolo26n-pose.pt" exportCfg,
               Event.existsCheck "yolo26n-pose.onnx" false,
               Event.echo (.warningMissing "yolo26n-pose.onnx")])
    ∧ (processCheckpoint envNoWrite "t" fsOne "yolo26n-pose.pt").1
        (finalPathOf "t" "yolo26n-pose.pt")
        = fsOne (finalPathOf "t" "yolo26n-pose.pt")
    ∧ runBatch envNoWrite "t" fsOne ["yolo26n-pose.pt"] =
        ((runBatch envNoWrite "t" fsOne []).1,
         [Event.echo (.processing "yolo26n-pose.pt"),
          Event.existsCheck "yolo26n-pose.pt" true,
          Event.loadModel "yolo26n-pose.pt",
          Event.exportModel "yolo26n-pose.pt" exportCfg,
          Event.existsCheck "yolo26n-pose.onnx" false,
          Event.echo (.warningMissing "yolo26n-pose.onnx")]
           ++ (runBatch envNoWrite "t" fsOne []).2) :=
  c4_missing_export_output envNoWrite "t" fsOne "yolo26n-pose.pt" "yolo26n-pose.onnx" []
    rfl rfl rfl rfl

/-- Claim C9: a failure raised by the rename of the exported artifact is
caught by the same per-checkpoint handler: the iteration returns
normally, its trace ends with the error line carrying the checkpoint
name and the rename failure detail, and the loop continues with the
rest of the list. -/
theorem c9_rename_failure_caught (env : Env) (targetDir : String) (fs : FS)
    (name p e : String) (rest : List String)
    (hex : fs.pathExists name = true)
    (hload : env.loadModel name = .ok ())
    (hexp : env.exportModel name = .ok p)
    (hx : (postExportFS env fs name p).pathExists p = true)
    (hr : env.renameErr p (finalPathOf targetDir name) = some e) :
    processCheckpoint env targetDir fs name =
      (postExportFS env fs name p,
       [Event.echo (.processing name), Event.existsCheck name true,
        Event.loadModel name, Event.exportModel name exportCfg,
        Event.existsCheck p true, Event.renameFile p (finalPathOf targetDir name),
        Event.echo (.errorExporting name e)])
    ∧ runBatch env targetDir fs (name :: rest) =
        ((runBatch env targetDir (postExportFS env fs name p) rest).1,
         [Event.echo (.processing name), Event.existsCheck name true,
          Event.loadModel name, Event.exportModel name exportCfg,
          Event.existsCheck p true, Event.renameFile p (finalPathOf targetDir name),
          Event.echo (.errorExporting name e)]
           ++ (runBatch env targetDir (postExportFS env fs name p) rest).2) := by
  have hp : processCheckpoint env targetDir fs name =
      (postExportFS env fs name p,
       [Event.echo (.processing name), Event.existsCheck name true,
        Event.loadModel name, Event.exportModel name exportCfg,
        Event.existsCheck p true, Event.renameFile p (finalPathOf targetDir name),
        Event.echo (.errorExporting name e)]) := by
    unfold processCheckpoint checkpointBody
    rw [hex]
    simp [hload, hexp, hx, hr]
  refine ⟨hp, ?_⟩
  rw [runBatch, hp]

/-- Witness for C9: a cross-device rename failure on the first
checkpoint. -/
theorem c9_witness :
    processCheckpoint envRenameFail "t" fsOne "yolo26n-pose.pt" =
      (postExportFS envRenameFail fsOne "yolo26n-pose.pt" "yolo26n-pose.onnx",
       [Event.echo (.processing "yolo26n-pose.pt"),
        Event.existsCheck "yolo26n-pose.pt" true,
        Event.loadModel "yolo26n-pose.pt",
        Event.exportModel "yolo26n-pose.pt" exportCfg,
        Event.existsCheck "yolo26n-pose.onnx" true,
        Event.renameFile "yolo26n-pose.onnx" (finalPathOf "t" "yolo26n-pose.pt"),
        Event.echo (.errorExporting "yolo26n-pose.pt" "cross-device link")])
    ∧ runBatch envRenameFail "t" fsOne ["yolo26n-pose.pt"] =
        ((runBatch envRenameFail "t"
            (postExportFS envRenameFail fsOne "yolo26n-pose.pt" "yolo26n-pose.onnx") []).1,
         [Event.echo (.processing "yolo26n-pose.pt"),
          Event.existsCheck "yolo26n-pose.pt" true,
          Event.loadModel "yolo26n-pose.pt",
          Event.exportModel "yolo26n-pose.pt" exportCfg,
          Event.existsCheck "yolo26n-pose.onnx" true,
          Event.renameFile "yolo26n-pose.onnx" (finalPathOf "t" "yolo26n-pose.pt"),
          Event.echo (.errorExporting "yolo26n-pose.pt" "cross-device link")]
           ++ (runBatch envRenameFail "t"
                (postExportFS envRenameFail fsOne "yolo26n-pose.pt" "yolo26n-pose.onnx") []).2) :=
  c9_rename_failure_caught envRenameFail "t" fsOne "yolo26n-pose.pt" "yolo26n-pose.onnx"
    "cross-device link" [] rfl rfl rfl (by decide) rfl

/-- Claim C7: when the export left its artifact at the reported path and
a file already sits at the computed destination, the rename goes through
without any confirmation step (the environment's rename is consulted
once and succeeds), and afterwards the destination path holds exactly
the newly exported artifact's content; the success line is printed. -/
theorem c7_rename_overwrites_destination (env : Env) (targetDir : String) (fs : FS)
    (name p : String)
    (hex : fs.pathExists name = true)
    (hload : env.loadModel name = .ok ())
    (hexp : env.exportModel name = .ok p)
    (hw : env.exportWrites name = true)
    (hr : env.renameErr p (finalPathOf targetDir name) = none)
    (hold : (fs (finalPathOf targetDir name)).isSome = true) :
    (processCheckpoint env targetDir fs name).1 (finalPathOf targetDir name)
      = some (env.exportContent name)
    ∧ Event.echo (.success (pythonReplace name ".pt" ".onnx") (finalPathOf targetDir name))
        ∈ (processCheckpoint env targetDir fs name).2 := by
  have hfs1p : postExportFS env fs name p p = some (env.exportContent name) := by
    simp [postExportFS, hw, FS.set_same]
  have hx : (postExportFS env fs name p).pathExists p = true := by
    rw [FS.pathExists, hfs1p]
    rfl
  have hp : processCheckpoint env targetDir fs name =
      (osRename (postExportFS env fs name p) p (finalPathOf targetDir name),
       [Event.echo (.processing name), Event.existsCheck name true,
        Event.loadModel name, Event.exportModel name exportCfg,
        Event.existsCheck p true, Event.renameFile p (finalPathOf targetDir name),
        Event.echo (.success (pythonReplace name ".pt" ".onnx") (finalPathOf targetDir name))]) := by
    unfold processCheckpoint checkpointBody
    rw [hex]
    simp [hload, hexp, hx, hr]
  rw [hp]
  constructor
  · show osRename (postExportFS env fs name p) p (finalPathOf targetDir name)
        (finalPathOf targetDir name) = some (env.exportContent name)
    unfold osRename
    split
    · next heq => rw [← heq, hfs1p]
    · next hne =>
      rw [FS.set_ne _ _ _ _ (fun hc => hne hc.symm), FS.set_same, hfs1p]
  · simp

/-- Witness for C7: the first checkpoint exported over a stale artifact
already at the destination. -/
theorem c7_witness :
    (processCheckpoint envOk (targetDirOf "s") fsOneStale "yolo26n-pose.pt").1
        (finalPathOf (targetDirOf "s") "yolo26n-pose.pt")
      = some (envOk.exportContent "yolo26n-pose.pt")
    ∧ Event.echo (.success (pythonReplace "yolo26n-pose.pt" ".pt" ".onnx")
          (finalPathOf (targetDirOf "s") "yolo26n-pose.pt"))
        ∈ (processCheckpoint envOk (targetDirOf "s") fsOneStale "yolo26n-pose.pt").2 :=
  c7_rename_overwrites_destination envOk (targetDirOf "s") fsOneStale "yolo26n-pose.pt"
    "yolo26n-pose.onnx" (by decide) rfl rfl rfl rfl (by decide)

/-- Claim C3: for every name in the script's list, the destination path
the script computes via `name.replace(".pt", ".onnx")` equals the target
directory joined with the name's extension stripped (everything from the
last dot removed) followed by `.onnx`. -/
theorem c3_destination_path (targetDir name : String) (h : name ∈ model_names) :
    finalPathOf targetDir name = osPathJoin targetDir (stemOf name ++ ".onnx") := by
  fin_cases h <;> rfl

/-- Witness for C3 at the first checkpoint name. -/
theorem c3_witness :
    finalPathOf "t" "yolo26n-pose.pt" =
      osPathJoin "t" (stemOf "yolo26n-pose.pt" ++ ".onnx") :=
  c3_destination_path "t" "yolo26n-pose.pt" (by decide)

/-- The event list carried by a `try`-body result, on either channel. -/
def bodyEvents : Except (String × FS × List Event) (FS × List Event) → List Event
  | .error (_, _, evs) => evs
  | .ok (_, evs) => evs

/-- The filesystem carried by a `try`-body result, on either channel. -/
def bodyFS : Except (String × FS × List Event) (FS × List Event) → FS
  | .error (_, fs1, _) => fs1
  | .ok (fs1, _) => fs1

lemma checkpointBody_export_cfg (env : Env) (targetDir name : String) (fs : FS)
    (n : String) (c : ExportConfig)
    (h : Event.exportModel n c ∈ bodyEvents (checkpointBody env targetDir name fs)) :
    c = exportCfg := by
  unfold checkpointBody at h
  split at h
  · simp [bodyEvents] at h
  · rcases hL : env.loadModel name with e | u
    · simp [hL, bodyEvents] at h
    · rcases hE : env.exportModel name with e | p
      · simp [hL, hE, bodyEvents] at h
        exact h.2
      · by_cases hx : (postExportFS env fs name p).pathExists p = true
        · rcases hR : env.renameErr p (finalPathOf targetDir name) with _ | e
          · simp [hL, hE, hx, hR, bodyEvents] at h
            tauto
          · simp [hL, hE, hx, hR, bodyEvents] at h
            tauto
        · simp [hL, hE, hx, bodyEvents] at h
          tauto

lemma processCheckpoint_export_cfg (env : Env) (targetDir : String) (fs : FS)
    (name n : String) (c : ExportConfig)
    (h : Event.exportModel n c ∈ (processCheckpoint env targetDir fs name).2) :
    c = exportCfg := by
  have hbody : Event.exportModel n c ∈ bodyEvents (checkpointBody env targetDir name fs) := by
    unfold processCheckpoint at h
    rcases hb : checkpointBody env targetDir name fs with ⟨e, fs1, evs⟩ | ⟨fs1, evs⟩ <;>
      rw [hb] at h <;> simp [bodyEvents] at h ⊢ <;> tauto
  exact checkpointBody_export_cfg env targetDir name fs n c hbody

lemma runBatch_export_cfg (env : Env) (targetDir : String) :
    ∀ (names : List String) (fs : FS) (n : String) (c : ExportConfig),
      Event.exportModel n c ∈ (runBatch env targetDir fs names).2 → c = exportCfg := by
  intro names
  induction names with
  | nil => intro fs n c h; simp [runBatch] at h
  | cons m rest ih =>
    intro fs n c h
    simp only [runBatch, List.mem_append] at h
    rcases h with h | h
    · exact processCheckpoint_export_cfg env targetDir fs m n c h
    · exact ih _ n c h

/-- Claim C6: every export call recorded in a run's trace carries the
one fixed configuration — format "onnx", resolution 640, simplification
on, dynamic shapes off, half precision, opset 17 — so the configuration
is constant across all checkpoints. -/
theorem c6_fixed_export_config (env : Env) (scriptDir : String) (fs : FS)
    (name : String) (cfg : ExportConfig)
    (h : Event.exportModel name cfg ∈ eventsOf (export_models env scriptDir fs)) :
    cfg = { format := "onnx", imgsz := 640, simplify := true,
            dynamic := false, half := true, opset := 17 } := by
  have hc : cfg = exportCfg := by
    rcases hm : env.mkdirErr with _ | e
    · simp only [export_models, hm, eventsOf, List.mem_cons] at h
      rcases h with h | h | h
      · cases h
      · cases h
      · exact runBatch_export_cfg env (targetDirOf scriptDir) model_names fs name cfg h
    · simp [export_models, hm, eventsOf] at h
  rw [hc]
  rfl

/-- Witness for C6: the export call of the first checkpoint in a full
successful run. -/
theorem c6_witness :
    exportCfg = { format := "onnx", imgsz := 640, simplify := true,
                  dynamic := false, half := true, opset := 17 } :=
  c6_fixed_export_config envOk "s" fsOne "yolo26n-pose.pt" exportCfg (by decide)

lemma checkpointBody_fs_cases (env : Env) (targetDir name : String) (fs : FS) :
    bodyFS (checkpointBody env targetDir name fs) = fs
    ∨ ∃ p, env.exportModel name = .ok p ∧
        (bodyFS (checkpointBody env targetDir name fs) = postExportFS env fs name p
         ∨ bodyFS (checkpointBody env targetDir name fs) =
             osRename (postExportFS env fs name p) p (finalPathOf targetDir name)) := by
  unfold checkpointBody
  split
  · left; rfl
  · rcases hL : env.loadModel name with e | u
    · simp only [hL]
      left; rfl
    · rcases hE : env.exportModel name with e | p
      · simp only [hL, hE]
        left; rfl
      · simp only [hL, hE]
        refine Or.inr ⟨p, rfl, ?_⟩
        by_cases hx : (postExportFS env fs name p).pathExists p = true
        · rcases hR : env.renameErr p (finalPathOf targetDir name) with _ | e
          · simp only [hx, hR, if_true]
            right; rfl
          · simp only [hx, hR, if_true]
            left; rfl
        · simp only [if_neg hx]
          left; rfl

lemma processCheckpoint_skip_fst (env : Env) (targetDir : String) (fs : FS)
    (name : String) (h : fs.pathExists name = false) :
    (processCheckpoint env targetDir fs name).1 = fs := by
  unfold processCheckpoint checkpointBody
  simp [h]

lemma processCheckpoint_error_fst (env : Env) (targetDir : String) (fs : FS)
    (name e : String) (fsE : FS) (evE : List Event)
    (h : checkpointBody env targetDir name fs = .error (e, fsE, evE)) :
    (processCheckpoint env targetDir fs name).1 = fsE := by
  unfold processCheckpoint
  rw [h]

lemma checkpointBody_error_fs (env : Env) (targetDir name : String) (fs : FS)
    (e : String) (fsE : FS) (evE : List Event)
    (h : checkpointBody env targetDir name fs = .error (e, fsE, evE)) :
    fsE = fs ∨ ∃ p, env.exportModel name = .ok p ∧ fsE = postExportFS env fs name p := by
  unfold checkpointBody at h
  split at h
  · simp at h
  · rcases hL : env.loadModel name with e1 | u
    · simp only [hL] at h
      simp at h
      exact Or.inl h.2.1.symm
    · rcases hE : env.exportModel name with e1 | p
      · simp only [hL, hE] at h
        simp at h
        exact Or.inl h.2.1.symm
      · simp only [hL, hE] at h
        by_cases hx : (postExportFS env fs name p).pathExists p = true
        · rcases hR : env.renameErr p (finalPathOf targetDir name) with _ | e1
          · simp [hx, hR] at h
          · simp [hx, hR] at h
            exact Or.inr ⟨p, rfl, h.2.1.symm⟩
        · simp [hx] at h

/-- `envOk`, except the exporter reports its output path inside the
destination directory `targetDirOf "s"` and the subsequent rename
fails. -/
def envEvil : Env :=
  { envOk with
    exportModel := fun _ => .ok (osPathJoin (targetDirOf "s") "evil.onnx")
    renameErr := fun _ _ => some "boom" }

/-- Counterexample for C10 as stated: when the exporter reports its
output at a path inside the destination directory, a failed iteration
(the rename raises) does write into the destination directory — it
creates a file at an in-directory path that is not the computed
destination. So without a side condition on the exporter-reported path,
the iteration is not limited to the computed destination, and a failed
iteration can write into the destination directory. -/
theorem c10_counterexample :
    inDir (targetDirOf "s") (osPathJoin (targetDirOf "s") "evil.onnx") = true
    ∧ osPathJoin (targetDirOf "s") "evil.onnx"
        ≠ finalPathOf (targetDirOf "s") "yolo26n-pose.pt"
    ∧ Event.echo (.errorExporting "yolo26n-pose.pt" "boom")
        ∈ (processCheckpoint envEvil (targetDirOf "s") fsOne "yolo26n-pose.pt").2
    ∧ fsOne (osPathJoin (targetDirOf "s") "evil.onnx") = none
    ∧ (processCheckpoint envEvil (targetDirOf "s") fsOne "yolo26n-pose.pt").1
        (osPathJoin (targetDirOf "s") "evil.onnx") = some 7 := by
  decide

/-- Claim C10, amended: provided the exporter reports its output at a
path outside the destination directory, a loop iteration changes no
path inside the destination directory other than that checkpoint's
computed destination (first conjunct); and a skipped iteration (second
conjunct, from a state where the checkpoint file is absent) as well as
a failed iteration (third conjunct, from a state where the try body
raises) leave every path inside the destination directory unchanged —
the computed destination path included, since `qd` is any in-directory
path. -/
theorem c10_destination_frame_amended
    (env : Env) (targetDir : String) (fs fsS fsF : FS) (name q qd : String)
    (e : String) (fsE : FS) (evE : List Event)
    (hlib : ∀ p, env.exportModel name = .ok p → inDir targetDir p = false)
    (hq : inDir targetDir q = true)
    (hne : q ≠ finalPathOf targetDir name)
    (hqd : inDir targetDir qd = true)
    (hskip : fsS.pathExists name = false)
    (hfail : checkpointBody env targetDir name fsF = .error (e, fsE, evE)) :
    (processCheckpoint env targetDir fs name).1 q = fs q
    ∧ (processCheckpoint env targetDir fsS name).1 qd = fsS qd
    ∧ (processCheckpoint env targetDir fsF name).1 qd = fsF qd := by
  have hqp : ∀ z p, inDir targetDir z = true → env.exportModel name = .ok p → z ≠ p := by
    intro z p hz hp he
    rw [he, hlib p hp] at hz
    exact absurd hz (by simp)
  refine ⟨?_, ?_, ?_⟩
  · have hcases := checkpointBody_fs_cases env targetDir name fs
    have hfst : (processCheckpoint env targetDir fs name).1 =
        bodyFS (checkpointBody env targetDir name fs) := by
      unfold processCheckpoint
      rcases hb : checkpointBody env targetDir name fs with ⟨e1, fs1, evs⟩ | ⟨fs1, evs⟩ <;>
        simp [bodyFS]
    rw [hfst]
    rcases hcases with hid | ⟨p, hp, hpost | hren⟩
    · rw [hid]
    · rw [hpost]
      exact postExportFS_ne env fs name p q (hqp q p hq hp)
    · rw [hren, osRename_other _ _ _ _ (hqp q p hq hp) hne]
      exact postExportFS_ne env fs name p q (hqp q p hq hp)
  · rw [processCheckpoint_skip_fst env targetDir fsS name hskip]
  · rw [processCheckpoint_error_fst env targetDir fsF name e fsE evE hfail]
    rcases checkpointBody_error_fs env targetDir name fsF e fsE evE hfail with hid | ⟨p, hp, hpost⟩
    · rw [hid]
    · rw [hpost]
      exact postExportFS_ne env fsF name p qd (hqp qd p hqd hp)

/-- Witness for the amended C10: a well-behaved exporter reporting its
output in the working directory, with the rename failing; an unrelated
in-directory path stays unchanged in a processed iteration, and the
computed destination path itself stays unchanged in both the skipped
(empty working directory) and the failed (rename error) iterations. -/
theorem c10_witness :
    (processCheckpoint envRenameFail (targetDirOf "s") fsOne "yolo26n-pose.pt").1
        (osPathJoin (targetDirOf "s") "other.onnx")
      = fsOne (osPathJoin (targetDirOf "s") "other.onnx")
    ∧ (processCheckpoint envRenameFail (targetDirOf "s") fsEmpty "yolo26n-pose.pt").1
        (finalPathOf (targetDirOf "s") "yolo26n-pose.pt")
      = fsEmpty (finalPathOf (targetDirOf "s") "yolo26n-pose.pt")
    ∧ (processCheckpoint envRenameFail (targetDirOf "s") fsOne "yolo26n-pose.pt").1
        (finalPathOf (targetDirOf "s") "yolo26n-pose.pt")
      = fsOne (finalPathOf (targetDirOf "s") "yolo26n-pose.pt") :=
  c10_destination_frame_amended envRenameFail (targetDirOf "s") fsOne fsEmpty fsOne
    "yolo26n-pose.pt" (osPathJoin (targetDirOf "s") "other.onnx")
    (finalPathOf (targetDirOf "s") "yolo26n-pose.pt")
    "cross-device link"
    (postExportFS envRenameFail fsOne "yolo26n-pose.pt" "yolo26n-pose.onnx")
    [Event.existsCheck "yolo26n-pose.pt" true, Event.loadModel "yolo26n-pose.pt",
     Event.exportModel "yolo26n-pose.pt" exportCfg,
     Event.existsCheck "yolo26n-pose.onnx" true,
     Event.renameFile "yolo26n-pose.onnx" (finalPathOf (targetDirOf "s") "yolo26n-pose.pt")]
    (by
      intro p hp
      simp [envRenameFail, envOk] at hp
      subst hp
      decide)
    (by decide) (by decide) (by decide) (by decide) rfl
